import Mathlib

/-!
Verification development for the IPO Intelligence Alpha enrichment pipeline
(`app.py`).  The pure computational core of the source file is shallowly
embedded below: Python numbers are modelled as exact rationals (`ℚ`),
optional / missing values as `Option`, Python dictionaries of known shape as
structures, and the raw filing-extraction JSON payload as an explicit tree.
Python exceptions that the source catches are modelled with `Except`.
-/

namespace IPOApp

/-- Python's `round(x, 2)` (banker's rounding: ties go to the even
hundredth), modelled on exact rationals. -/
def roundTo2 (q : ℚ) : ℚ :=
  ((if q * 100 - ⌊q * 100⌋ < 1/2 then ⌊q * 100⌋
    else if 1/2 < q * 100 - ⌊q * 100⌋ then ⌊q * 100⌋ + 1
    else if ⌊q * 100⌋ % 2 = 0 then ⌊q * 100⌋ else ⌊q * 100⌋ + 1 : ℤ) : ℚ) / 100

/-- Rendering of a rational as Python renders the numbers that occur in the
app (integers, and floats already rounded to at most two decimals by
`round(_, 2)`). -/
def ratToStr (q : ℚ) : String :=
  let sign := if q.num < 0 then "-" else ""
  let n : ℕ := q.num.natAbs
  if q.den = 1 then sign ++ toString n
  else if q.den ∣ 10 then
    let scaled := n * (10 / q.den)
    sign ++ toString (scaled / 10) ++ "." ++ toString (scaled % 10)
  else if q.den ∣ 100 then
    let scaled := n * (100 / q.den)
    let fr := scaled % 100
    sign ++ toString (scaled / 100) ++ "." ++ toString (fr / 10) ++ toString (fr % 10)
  else sign ++ toString n ++ "/" ++ toString q.den

/-- Python truthiness of an optional number (`None` and `0` are falsy). -/
def optTruthy (x : Option ℚ) : Bool :=
  match x with
  | none => false
  | some q => q != 0

/-- From `app.py` lines 250-256 (`safe_div`, local to `compute_multiples`):
`None` if either operand is missing or the denominator is zero, else the
quotient rounded to two decimals. -/
def safe_div (a b : Option ℚ) : Option ℚ :=
  match a, b with
  | some x, some y => if y = 0 then none else some (roundTo2 (x / y))
  | _, _ => none

/-- The `compute_multiples` result dictionary (`app.py` lines 257-264). -/
structure Multiples where
  evRevenue : Option ℚ
  evEbitda : Option ℚ
  priceSales : Option ℚ
  marketCap : Option ℚ
  revenueTTM : Option ℚ
  ebitda : Option ℚ
  deriving DecidableEq, Repr

/-- From `app.py` lines 244-264 (`compute_multiples`), taken after the two
network fetches: the pure computation from the fetched enterprise value,
revenue, EBITDA and market cap to the multiples record. -/
def compute_multiples (ev revenue ebitda market_cap : Option ℚ) : Multiples :=
  { evRevenue := safe_div ev revenue
    evEbitda := safe_div ev ebitda
    priceSales := safe_div market_cap revenue
    marketCap := market_cap
    revenueTTM := revenue
    ebitda := ebitda }

/-- From `app.py` lines 276-281 (`median`, local to `fetch_sector_median`):
drop `None`s, sort ascending, take the middle element (odd count) or the
average of the two middle elements (even count), rounded to two decimals;
`None` on empty input.  Python's `sorted` is modelled by insertion sort
(both produce the unique ascending reordering of a list of numbers). -/
def median (vals : List (Option ℚ)) : Option ℚ :=
  let s := List.insertionSort (· ≤ ·) (vals.filterMap id)
  if s = [] then none
  else
    let n := s.length
    let mid := n / 2
    if n % 2 = 1 then some (roundTo2 (s.getD mid 0))
    else some (roundTo2 ((s.getD (mid - 1) 0 + s.getD mid 0) / 2))

/-- Python's `str.lower` (over the character list; ASCII case folding). -/
def strLower (s : String) : String := ⟨s.data.map Char.toLower⟩

/-- Python's `needle in hay` on strings: substring containment. -/
def strContains (hay needle : String) : Bool :=
  decide (needle.data <:+: hay.data)

/-- Python's `str.startswith`. -/
def strStartsWith (s pre : String) : Bool :=
  decide (pre.data <+: s.data)

/-- Python's `int` on a non-empty all-digit string. -/
def digitsToNat (cs : List Char) : ℕ :=
  cs.foldl (fun n c => 10 * n + (c.toNat - 48)) 0

/-- The fixed underwriter roster (`app.py` line 318, `TOP_UNDERWRITERS`). -/
def TOP_UNDERWRITERS : List String :=
  ["Goldman Sachs", "Morgan Stanley", "J.P. Morgan", "JPMorgan", "Bank of America",
   "Barclays", "Citigroup", "Citi", "Credit Suisse", "UBS", "Deutsche Bank"]

/-- The match comprehension of `app.py` line 324: input entries containing
some roster bank name case-insensitively. -/
def rosterMatches (us : List String) : List String :=
  us.filter (fun u => TOP_UNDERWRITERS.any
    (fun t => strContains (strLower u) (strLower t)))

/-- From `app.py` lines 321-329 (`underwriter_credibility_score`): `Unknown` on a
falsy input (absent or empty list); otherwise input entries containing a
roster bank name case-insensitively are the matches, scored High (≥ 2),
Medium (= 1, matches returned) or Low (0, whole input returned).  The result
dictionary `{"score": _, "matches": _}` is modelled as a pair. -/
def underwriter_credibility_score (underwriters_list : Option (List String)) :
    String × List String :=
  match underwriters_list with
  | none => ("Unknown", [])
  | some us =>
    if us = [] then ("Unknown", [])
    else if 2 ≤ (rosterMatches us).length then ("High", rosterMatches us)
    else if (rosterMatches us).length = 1 then ("Medium", rosterMatches us)
    else ("Low", us)

/-- The fixed risk-phrase list of `red_flag_scan` (`app.py` line 354). -/
def risk_phrases : List String :=
  ["going concern", "material adverse", "significant doubt", "revenue recognition",
   "related party", "fraud", "suspicious", "substantial doubt"]

/-- A single-quote character (Python renders the phrase inside quotes). -/
def sq : String := String.singleton (Char.ofNat 39)

/-- The phrase flag message of `app.py` line 358. -/
def phraseFlag (ph : String) : String :=
  "Phrase: " ++ sq ++ ph ++ sq ++ " found in extracted text"

/-- The EV/Revenue flag message of `app.py` line 363. -/
def evFlag (v : ℚ) : String := "High EV/Revenue: " ++ ratToStr v ++ "x"

/-- The Price/Sales flag message of `app.py` line 365. -/
def psFlag (v : ℚ) : String := "High Price/Sales: " ++ ratToStr v ++ "x"

/-- From `app.py` lines 351-366 (`red_flag_scan`): if the text is truthy, append
one flag per risk phrase found (in phrase order) in the lowercased text;
if the multiples dict is truthy, append the EV/Revenue flag when that ratio
is truthy and `> 20`, then the Price/Sales flag when truthy and `> 30`. -/
def red_flag_scan (text : String) (multiples : Option Multiples) : List String :=
  let flags :=
    if text ≠ "" then
      risk_phrases.foldl
        (fun acc ph => if strContains (strLower text) ph then acc ++ [phraseFlag ph] else acc) []
    else []
  match multiples with
  | none => flags
  | some m =>
    let flags :=
      match m.evRevenue with
      | some v => if v ≠ 0 ∧ 20 < v then flags ++ [evFlag v] else flags
      | none => flags
    match m.priceSales with
    | some v => if v ≠ 0 ∧ 30 < v then flags ++ [psFlag v] else flags
    | none => flags

/-- From `app.py` lines 83-92 (`format_price`).  The Python arguments are the raw
optional JSON numbers; `if price:` etc. are Python truthiness tests
(`None` and `0` falsy). -/
def format_price (price min_p max_p : Option ℚ) : String :=
  if optTruthy price then "$" ++ ratToStr (price.getD 0)
  else if optTruthy min_p && optTruthy max_p then
    "$" ++ ratToStr (min_p.getD 0) ++ " – $" ++ ratToStr (max_p.getD 0)
  else if optTruthy min_p && !optTruthy max_p then "$" ++ ratToStr (min_p.getD 0) ++ "+"
  else if optTruthy max_p && !optTruthy min_p then "Up to $" ++ ratToStr (max_p.getD 0)
  else "—"

/-- Uppercase hexadecimal digit for `n < 16`. -/
def hexDigit (n : ℕ) : Char :=
  if n < 10 then Char.ofNat (48 + n) else Char.ofNat (55 + n)

/-- Bytes `urllib.parse.quote` leaves unescaped with the default
`safe='/'`: ASCII letters, digits, `_ . - ~` and `/`. -/
def quoteSafeByte (b : ℕ) : Bool :=
  (65 ≤ b && b ≤ 90) || (97 ≤ b && b ≤ 122) || (48 ≤ b && b ≤ 57) ||
  b = 95 || b = 46 || b = 45 || b = 126 || b = 47

/-- UTF-8 encoding of one character, as a list of byte values. -/
def charUtf8 (c : Char) : List ℕ :=
  let v := c.toNat
  if v < 128 then [v]
  else if v < 2048 then [192 + v / 64, 128 + v % 64]
  else if v < 65536 then [224 + v / 4096, 128 + v / 64 % 64, 128 + v % 64]
  else [240 + v / 262144, 128 + v / 4096 % 64, 128 + v / 64 % 64, 128 + v % 64]

/-- Percent-encoding of one byte: kept literally when safe, else `%XX`. -/
def quoteByte (b : ℕ) : String :=
  if quoteSafeByte b then String.singleton (Char.ofNat b)
  else "%" ++ String.singleton (hexDigit (b / 16)) ++ String.singleton (hexDigit (b % 16))

/-- Python `urllib.parse.quote` with its default `safe='/'` (`app.py` line 25
imports it as `quote`): UTF-8 encode, then percent-encode unsafe bytes. -/
def pyQuote (s : String) : String :=
  s.data.foldl (fun acc c => acc ++ (charUtf8 c).foldl (fun a b => a ++ quoteByte b) "") ""

/-- A curated or fallback sector outlook: the `tam` / `cagr` strings and the
`sources` list of `(title, url)` dictionaries. -/
structure Outlook where
  tam : String
  cagr : String
  sources : List (String × String)
  deriving DecidableEq, Repr

/-- From `app.py` lines 371-377 (`TAM_CAGR_MAP`), in dictionary insertion order
(Python dicts iterate in insertion order). -/
def TAM_CAGR_MAP : List (String × Outlook) :=
  [("cybersecurity",
    { tam := "Global cybersecurity market ~200B (2024 est.)"
      cagr := "~12% CAGR to 2030"
      sources := [("Grand View Research",
        "https://www.grandviewresearch.com/industry-analysis/cyber-security-market")] }),
   ("ai",
    { tam := "AI software segments vary; generative AI segments show very fast growth"
      cagr := "~30%+ CAGR for some generative AI subsegments"
      sources := [("MarketsandMarkets", "https://www.marketsandmarkets.com/")] }),
   ("biotechnology",
    { tam := "Broad biotech market >$900B"
      cagr := "~7-10% depending on subsegment"
      sources := [("Fortune Business Insights", "https://www.fortunebusinessinsights.com/")] }),
   ("renewable energy",
    { tam := "Renewable energy market large and growing"
      cagr := "~8-10% for many subsegments"
      sources := [("IEA", "https://www.iea.org/")] }),
   ("fintech",
    { tam := "Fintech sizable; payments/lending subsegments large"
      cagr := "~20% for some fintech segments"
      sources := [("Statista", "https://www.statista.com/")] })]

/-- The fallback outlook of `app.py` line 384: no curated entry, single
web-search source built from the input term. -/
def fallbackOutlook (sector_or_industry : Option String) : Outlook :=
  { tam := "No curated TAM available for this sector in the local mapping."
    cagr := "Unknown"
    sources := [("Search results",
      "https://www.google.com/search?q=" ++
        pyQuote ("market size " ++ sector_or_industry.getD ""))] }

/-- From `app.py` lines 379-384 (`get_tam_cagr`): lowercase the input
(`None` coerced to `""`), return the entry of the first map key occurring
as a substring of it, else the search fallback. -/
def get_tam_cagr (sector_or_industry : Option String) : Outlook :=
  let key := strLower (sector_or_industry.getD "")
  match TAM_CAGR_MAP.find? (fun kv => strContains key kv.1) with
  | some kv => kv.2
  | none => fallbackOutlook sector_or_industry

/-- The curated keyword list in table iteration order, as the spec words it
(§4.5). -/
def specOutlookKeywords : List String :=
  ["cybersecurity", "ai", "biotechnology", "renewable energy", "fintech"]

/-- The resolution rule in the spec's words (§4.5), for comparison with
`get_tam_cagr`: the first keyword, in table iteration order, occurring
case-insensitively as a substring of the input wins; no match falls back
to the search outlook. -/
def specResolveOutlook (s : String) : Outlook :=
  match specOutlookKeywords.find? (fun k => strContains (strLower s) k) with
  | some k => (TAM_CAGR_MAP.lookup k).getD (fallbackOutlook (some s))
  | none => fallbackOutlook (some s)

/-- A raw `shares` field value: the providers deliver either a number or a
formatted string. -/
inductive SharesVal where
  | num (q : ℚ)
  | str (s : String)
  deriving DecidableEq, Repr

/-- Python `re.sub(r'[^\d]', '', s)`: keep only decimal digits. -/
def stripNonDigits (s : String) : String :=
  ⟨s.data.filter Char.isDigit⟩

/-- From `app.py` lines 476-478: `shares_raw = r.get("shares") or 0`, then a
string is coerced with `int(re.sub(r'[^\d]', '', shares_raw) or 0)`. -/
def coerceShares (shares : Option SharesVal) : ℚ :=
  match shares with
  | none => 0
  | some (.num q) => q
  | some (.str s) =>
    if s = "" then 0
    else
      let t := stripNonDigits s
      if t = "" then 0 else (digitsToNat t.data : ℕ)

/-- From `app.py` lines 474-493: the implied market cap block of the enrichment
loop.  Price is the `price` field when truthy, else the midpoint of the
range when both bounds are truthy; the product is formed only when both the
price value and the coerced share count are truthy. -/
def implied_marketcap (price min_p max_p : Option ℚ) (shares : Option SharesVal) :
    Option ℚ :=
  let shares_raw := coerceShares shares
  let price_val : Option ℚ :=
    if optTruthy price then price
    else if optTruthy min_p && optTruthy max_p then
      some ((min_p.getD 0 + max_p.getD 0) / 2)
    else none
  match price_val with
  | some pv => if pv ≠ 0 ∧ shares_raw ≠ 0 then some (pv * shares_raw) else none
  | none => none

/-- One normalized provider row (`app.py` lines 124-136 and 153-165): the
common shape both adapters emit. -/
structure Row where
  source : String
  date : Option String
  company : Option String
  symbol : Option String
  exchange : Option String
  price : Option ℚ
  price_min : Option ℚ
  price_max : Option ℚ
  shares : Option SharesVal
  status : Option String
  deal_type : Option String
  deriving DecidableEq, Repr

/-- The dedup subset of `app.py` line 395: `['date','company','symbol','source']`. -/
abbrev RowKey := Option String × Option String × Option String × String

/-- The composite uniqueness key of a row. -/
def rowKey (r : Row) : RowKey := (r.date, r.company, r.symbol, r.source)

/-- Helper for `drop_duplicates`: keep a row iff its key was not seen yet. -/
def dropDupAux : List RowKey → List Row → List Row
  | _, [] => []
  | seen, r :: rs =>
    if rowKey r ∈ seen then dropDupAux seen rs
    else r :: dropDupAux (rowKey r :: seen) rs

/-- From `app.py` line 395: `pd.DataFrame(rows).drop_duplicates(subset=
['date','company','symbol','source'], keep='first')` — keep the first row
of every group sharing the composite key, in order. -/
def drop_duplicates (rows : List Row) : List Row := dropDupAux [] rows

/-- Ascending date order used by `df.sort_values("date")`; missing dates
(`NaN`) sort last, as in pandas. -/
def dateLe (a b : Option String) : Bool :=
  match a, b with
  | none, none => true
  | none, some _ => false
  | some _, none => true
  | some x, some y => x ≤ y

/-- From `app.py` line 406: `df.sort_values("date")`, modelled by a comparison
sort on the date column. -/
def sortByDate (rows : List Row) : List Row :=
  List.insertionSort (fun a b => dateLe a.date b.date = true) rows

/-- The empty-window info message of `app.py` line 398. -/
def emptyMsg : String :=
  "No IPOs found for the selected window. Try widening the date range."

/-- From `app.py` lines 392-399 and 405-523: concatenate the provider rows,
deduplicate, and on an empty frame emit the info message and `st.stop()`
(modelled as the `Except.error` outcome) instead of entering the
per-candidate enrichment loop; otherwise sort by date and enrich each row. -/
def orchestrate {E : Type} (fmp_rows finnhub_rows : List Row) (enrich : Row → E) :
    Except String (List E) :=
  let df := drop_duplicates (fmp_rows ++ finnhub_rows)
  if df = [] then Except.error emptyMsg
  else Except.ok ((sortByDate df).map enrich)

/-! ### Filing-extraction payload and `recursive_search` -/

mutual
/-- A JSON-like value, the shape of the `s1_extracted` payload. -/
inductive JVal where
  | str (s : String)
  | num (q : ℚ)
  | boolean (b : Bool)
  | null
  | arr (items : JList)
  | obj (fields : JObj)

/-- A JSON array. -/
inductive JList where
  | nil
  | cons (hd : JVal) (tl : JList)

/-- A JSON object: ordered key/value fields (Python dict keys are unique
and iterate in insertion order). -/
inductive JObj where
  | nil
  | cons (key : String) (val : JVal) (tl : JObj)
end

/-- Python `obj.get(key)` on a dict. -/
def JObj.get : JObj → String → Option JVal
  | .nil, _ => none
  | .cons k v tl, key => if k = key then some v else JObj.get tl key

/-- The recognized URL-bearing keys of `app.py` line 443, in loop order. -/
def urlKeys : List String := ["linkToFilingDetails", "filingUrl", "htmlUrl", "link"]

/-- The URL loop of `app.py` lines 443-445: the first recognized key whose
value is a string starting with `"http"`. -/
def findUrlValue (fields : JObj) : Option String :=
  urlKeys.findSome? (fun key =>
    match fields.get key with
    | some (.str s) => if strStartsWith s "http" then some s else none
    | _ => none)

mutual
/-- From `app.py` lines 432-452 (`recursive_search`): returns `(txt, url)`.
On a dict it loops over the values — but `txt += recursive_search(v)` on a
dict- or list-typed value appends the returned *tuple* to a `str`, which
raises `TypeError` (and a raised error from the nested call propagates);
both are modelled as `Except.error ()`.  String values longer than 40
characters are accumulated with a leading space; then the URL-key loop may
return early.  On a list it destructures each recursive result correctly
and short-circuits on the first truthy URL. -/
def recursive_search : JVal → Except Unit (String × Option String)
  | .obj fields => do
    let txt ← searchFields fields ""
    match findUrlValue fields with
    | some u => Except.ok (txt, some u)
    | none => Except.ok (txt, none)
  | .arr items => searchItems items ""
  | _ => Except.ok ("", none)

/-- The dict-value loop of `recursive_search` (`app.py` lines 435-441),
carrying the accumulated `txt`. -/
def searchFields : JObj → String → Except Unit String
  | .nil, acc => Except.ok acc
  | .cons _ (.obj fs) _, _ => do
    let _ ← recursive_search (.obj fs)
    Except.error ()
  | .cons _ (.arr its) _, _ => do
    let _ ← recursive_search (.arr its)
    Except.error ()
  | .cons _ (.str s) tl, acc =>
    searchFields tl (if 40 < s.length then acc ++ " " ++ s else acc)
  | .cons _ (.num _) tl, acc => searchFields tl acc
  | .cons _ (.boolean _) tl, acc => searchFields tl acc
  | .cons _ .null tl, acc => searchFields tl acc

/-- The list loop of `recursive_search` (`app.py` lines 446-451). -/
def searchItems : JList → String → Except Unit (String × Option String)
  | .nil, acc => Except.ok (acc, none)
  | .cons hd tl, acc => do
    let (subtxt, url) ← recursive_search hd
    let acc2 := acc ++ subtxt
    match url with
    | some u => if u ≠ "" then Except.ok (acc2, some u) else searchItems tl acc2
    | none => searchItems tl acc2
end

/-! ### `parse_lockup` (`app.py` lines 340-349)

The two patterns `lock[-\s]?up[^\d]{0,30}(\d{1,4})\s*(days|day|months|month|m)`
and `(\d{2,4})\s*days` are compiled to explicit matchers.  For both, greedy
matching with backtracking collapses to a deterministic procedure: a
bounded character-class repetition that fails to be followed by its
successor fails at every shorter backtrack too (the vacated position holds
a character the successor cannot start with), so each repetition is matched
by maximal munch and the attempt fails outright when the munch overruns the
bound (`{0,30}` / `{1,4}` / `{2,4}`) or the successor does not follow.
`re.search` scans candidate start positions left to right. -/

/-- Python `\s` (modelled on its ASCII members). -/
def isPySpace (c : Char) : Bool :=
  c = ' ' || c = '\t' || c = '\n' || c = Char.ofNat 13 || c = Char.ofNat 11 || c = Char.ofNat 12

/-- Case-insensitive literal match (`re.I`): `pat` must be lowercase; on
success returns the rest of the input. -/
def ciPrefixRest : List Char → List Char → Option (List Char)
  | [], cs => some cs
  | _ :: _, [] => none
  | p :: ps, c :: cs => if c.toLower = p then ciPrefixRest ps cs else none

/-- The unit alternation `(days|day|months|month|m)`, tried in pattern
order; returns the matched original-case slice. -/
def matchAltUnit (cs : List Char) : Option (List Char) :=
  (["days", "day", "months", "month", "m"] : List String).findSome? (fun u =>
    match ciPrefixRest u.data cs with
    | some _ => some (cs.take u.length)
    | none => none)

/-- One anchored attempt of the first lockup pattern; returns the two
capture groups (number, unit). -/
def matchLockupAt (cs : List Char) : Option (String × String) := do
  let r1 ← ciPrefixRest "lock".data cs
  let r2 ←
    match r1 with
    | c :: rest =>
      if c = '-' || isPySpace c then ciPrefixRest "up".data rest
      else ciPrefixRest "up".data r1
    | [] => none
  let nd := r2.takeWhile (fun c => !c.isDigit)
  if 30 < nd.length then none
  else
    let r3 := r2.drop nd.length
    let ds := r3.takeWhile (fun c => c.isDigit)
    if ds.length = 0 || 4 < ds.length then none
    else
      let r4 := r3.drop ds.length
      let r5 := r4.drop (r4.takeWhile isPySpace).length
      match matchAltUnit r5 with
      | some unit => some (⟨ds⟩, ⟨unit⟩)
      | none => none

/-- The `re.search` scan for the first lockup pattern. -/
def searchLockup : List Char → Option (String × String)
  | [] => none
  | cs@(_ :: tl) =>
    match matchLockupAt cs with
    | some g => some g
    | none => searchLockup tl

/-- One anchored attempt of the fallback pattern `(\d{2,4})\s*days`. -/
def matchDaysAt (cs : List Char) : Option String :=
  let ds := cs.takeWhile (fun c => c.isDigit)
  if ds.length < 2 || 4 < ds.length then none
  else
    let r := cs.drop ds.length
    match ciPrefixRest "days".data (r.drop (r.takeWhile isPySpace).length) with
    | some _ => some ⟨ds⟩
    | none => none

/-- The `re.search` scan for the fallback pattern. -/
def searchDays : List Char → Option String
  | [] => none
  | cs@(_ :: tl) =>
    match matchDaysAt cs with
    | some g => some g
    | none => searchDays tl

/-- From `app.py` lines 340-349 (`parse_lockup`): falsy text yields `None`;
else the first pattern yields `"{group1} {group2}"`, else the fallback
pattern yields `"{group1} days"`, else `None`. -/
def parse_lockup (text : String) : Option String :=
  if text = "" then none
  else
    match searchLockup text.data with
    | some (g1, g2) => some (g1 ++ " " ++ g2)
    | none =>
      match searchDays text.data with
      | some g => some (g ++ " days")
      | none => none

/-- From `app.py` lines 424-471, restricted to the lockup signal: inside the
`try`, `recursive_search` produces `combined_text` (or the exception is
caught, leaving it `""` and `lockup = None`); `lockup =
parse_lockup(combined_text)`. -/
def pipelineLockup (s1_extracted : JVal) : Option String :=
  match recursive_search s1_extracted with
  | Except.ok (raw_text, _) => parse_lockup raw_text
  | Except.error _ => none

mutual
/-- Modelled from the spec (§4.3 step 1), for comparison with the code:
the strings a depth-first traversal of the payload collects — every string
value longer than 40 characters. -/
def specCollect : JVal → List String
  | .str s => if 40 < s.length then [s] else []
  | .arr items => specCollectList items
  | .obj fields => specCollectObj fields
  | _ => []

/-- Depth-first collection over a JSON array (spec §4.3 step 1). -/
def specCollectList : JList → List String
  | .nil => []
  | .cons hd tl => specCollect hd ++ specCollectList tl

/-- Depth-first collection over a JSON object (spec §4.3 step 1). -/
def specCollectObj : JObj → List String
  | .nil => []
  | .cons _ v tl => specCollect v ++ specCollectObj tl
end

/-- Space-joining of a list of strings (Python `" ".join`). -/
def joinSpace : List String → String
  | [] => ""
  | [x] => x
  | x :: xs => x ++ " " ++ joinSpace xs

/-- Modelled from the spec (§4.3 step 1): the space-joined accumulated
text blob. -/
def specAccumulatedText (j : JVal) : String :=
  joinSpace (specCollect j)

/-! ## Theorems -/

/-- Lemma: `safe_div` yields a value exactly when both operands are present and
the denominator is non-zero. -/
theorem safe_div_isSome (a b : Option ℚ) :
    (safe_div a b).isSome ↔ a.isSome ∧ ∃ y, b = some y ∧ y ≠ 0 := by
  cases a <;> cases b <;> simp [safe_div]

/-- Claim C2: each of the three ratios of `compute_multiples` is present
exactly when its numerator is present and its denominator is present and
non-zero; a missing operand or zero denominator yields `none` (no
exception, infinity or sentinel zero is possible in the `Option ℚ`
codomain); in particular revenue = 0 makes EV/Revenue (and Price/Sales)
unavailable. -/
theorem compute_multiples_ratio_presence (ev revenue ebitda market_cap : Option ℚ) :
    ((compute_multiples ev revenue ebitda market_cap).evRevenue.isSome ↔
      ev.isSome ∧ ∃ r, revenue = some r ∧ r ≠ 0) ∧
    ((compute_multiples ev revenue ebitda market_cap).evEbitda.isSome ↔
      ev.isSome ∧ ∃ e, ebitda = some e ∧ e ≠ 0) ∧
    ((compute_multiples ev revenue ebitda market_cap).priceSales.isSome ↔
      market_cap.isSome ∧ ∃ r, revenue = some r ∧ r ≠ 0) ∧
    (revenue = some 0 →
      (compute_multiples ev revenue ebitda market_cap).evRevenue = none ∧
      (compute_multiples ev revenue ebitda market_cap).priceSales = none) := by
  refine ⟨safe_div_isSome ev revenue, safe_div_isSome ev ebitda,
    safe_div_isSome market_cap revenue, ?_⟩
  rintro rfl
  cases ev <;> cases market_cap <;> simp [compute_multiples, safe_div]

/-- Claim C2 witness: a concrete instantiation — enterprise value 100 with
revenue 0 yields an unavailable EV/Revenue. -/
theorem compute_multiples_ratio_presence_witness :
    (compute_multiples (some 100) (some 0) none (some 50)).evRevenue = none :=
  ((compute_multiples_ratio_presence (some 100) (some 0) none (some 50)).2.2.2 rfl).1

/-- Lemma: `roundTo2` is the identity on rationals whose hundredfold is an
integer. -/
theorem roundTo2_eq_self {q : ℚ} {n : ℤ} (h : q * 100 = (n : ℚ)) : roundTo2 q = q := by
  unfold roundTo2
  rw [h, Int.floor_intCast, if_pos (by norm_num : ((n : ℚ) - n < 1/2))]
  have : q = (n : ℚ) / 100 := by field_simp at h ⊢; linarith
  rw [this]

/-- The half-even tie: `roundTo2 (1/8) = 0.12`. -/
theorem roundTo2_eighth : roundTo2 (1/8) = 3/25 := by
  have h1 : ((1 : ℚ)/8) * 100 = 25/2 := by norm_num
  have hf : ⌊((1 : ℚ)/8) * 100⌋ = 12 := by rw [h1]; norm_num [Int.floor_eq_iff]
  unfold roundTo2
  rw [hf, h1, if_neg (by norm_num), if_neg (by norm_num), if_pos (by norm_num)]
  norm_num

/-- Claim C3 counterexample: the claim says the median of a singleton list
is its middle element, but `median` rounds to two decimal places:
on `[1/8]` (Python `[0.125]`) the code returns `0.12`, not `0.125`. -/
theorem median_counterexample :
    median [some (1/8)] = some (3/25) ∧ median [some (1/8)] ≠ some (1/8) := by
  have hm : median [some ((1 : ℚ)/8)] = some (roundTo2 (1/8)) := by
    simp [median, List.insertionSort, List.orderedInsert, List.getD]
  rw [hm, roundTo2_eighth]
  refine ⟨rfl, ?_⟩
  simp only [ne_eq, Option.some.injEq]
  norm_num

/-- Claim C3 (amended): for every input list, `median` drops the `none`
entries, and on the ascending reordering `s` of what remains returns `none`
when `s` is empty, the middle element *rounded to two decimal places
(half-even)* for an odd count, and the rounded average of the two middle
elements for an even count. -/
theorem median_spec (vals : List (Option ℚ)) (s : List ℚ)
    (hp : (vals.filterMap id).Perm s) (hs : s.Sorted (· ≤ ·)) :
    median vals =
      if s = [] then none
      else if s.length % 2 = 1 then some (roundTo2 (s.getD (s.length / 2) 0))
      else some (roundTo2 ((s.getD (s.length / 2 - 1) 0 + s.getD (s.length / 2) 0) / 2)) := by
  have h1 : List.insertionSort (· ≤ ·) (vals.filterMap id) = s :=
    List.eq_of_perm_of_sorted ((List.perm_insertionSort _ _).trans hp)
      (List.sorted_insertionSort _ _) hs
  simp only [median, h1]

/-- Claim C3 witness: the spec examples, via `median_spec` —
median [10, 20, 30] = 20 and median [10, 20] = 15 and median [] = none. -/
theorem median_spec_witness :
    median [some 10, some 20, some 30] = some 20 ∧
    median [some 10, some 20] = some 15 ∧
    median ([] : List (Option ℚ)) = none := by
  refine ⟨?_, ?_, ?_⟩
  · have hfm : List.filterMap id [some (10 : ℚ), some 20, some 30] = [10, 20, 30] := by simp
    have h := median_spec [some 10, some 20, some 30] [10, 20, 30]
      (hfm ▸ List.Perm.refl _) (by norm_num [List.sorted_cons])
    have h20 : roundTo2 (20 : ℚ) = 20 := roundTo2_eq_self (n := 2000) (by norm_num)
    rw [h, if_neg (show ¬([10, 20, 30] : List ℚ) = [] by simp)]
    norm_num [List.getD, h20]
  · have hfm : List.filterMap id [some (10 : ℚ), some 20] = [10, 20] := by simp
    have h := median_spec [some 10, some 20] [10, 20]
      (hfm ▸ List.Perm.refl _) (by norm_num [List.sorted_cons])
    have h15 : roundTo2 (15 : ℚ) = 15 := roundTo2_eq_self (n := 1500) (by norm_num)
    rw [h, if_neg (show ¬([10, 20] : List ℚ) = [] by simp)]
    norm_num [List.getD, h15]
  · have h := median_spec [] [] (List.Perm.refl _) List.sorted_nil
    rw [h]
    simp

/-- Appending one flag per passing phrase, as the `red_flag_scan` loop
does, equals mapping the flag constructor over the filtered phrase list. -/
theorem foldl_append_filter (p : String → Bool) (f : String → String)
    (ps : List String) (acc : List String) :
    ps.foldl (fun acc ph => if p ph then acc ++ [f ph] else acc) acc
      = acc ++ (ps.filter p).map f := by
  induction ps generalizing acc with
  | nil => simp
  | cons hd tl ih =>
    by_cases h : p hd <;> simp [List.filter_cons, h, ih]

/-- A Python `x and x > c` guard (for positive `c`) is equivalent to the
plain threshold test `x > c`. -/
theorem ite_truthy_and {α : Type} (v c : ℚ) (hc : 0 < c) (x y : α) :
    (if v ≠ 0 ∧ c < v then x else y) = if c < v then x else y := by
  by_cases h : c < v
  · rw [if_pos ⟨ne_of_gt (lt_trans hc h), h⟩, if_pos h]
  · rw [if_neg (fun hh => h hh.2), if_neg h]

/-- Claim C4: `red_flag_scan` is a pure function of its two arguments: it
emits one flag per risk phrase found case-insensitively in the text, in the
fixed phrase order, then the EV/Revenue > 20 flag, then the Price/Sales >
30 flag; on a text containing (only) "going concern" with EV/Revenue = 25
it yields exactly the going-concern phrase flag followed by the high
EV/Revenue flag. -/
theorem red_flag_scan_spec :
    (∀ (text : String) (m : Multiples),
      red_flag_scan text (some m) =
        (risk_phrases.filter (fun ph => strContains (strLower text) ph)).map phraseFlag
          ++ (match m.evRevenue with
              | some v => if 20 < v then [evFlag v] else []
              | none => [])
          ++ (match m.priceSales with
              | some v => if 30 < v then [psFlag v] else []
              | none => [])) ∧
    red_flag_scan "Auditors noted going concern risk."
        (some ⟨some 25, none, none, none, none, none⟩)
      = [phraseFlag "going concern", evFlag 25] := by
  constructor
  · intro text m
    obtain ⟨er, ee, ps, mc, rev, eb⟩ := m
    have hphrases : (if text ≠ "" then
          risk_phrases.foldl
            (fun acc ph => if strContains (strLower text) ph then acc ++ [phraseFlag ph] else acc) []
        else []) = (risk_phrases.filter (fun ph => strContains (strLower text) ph)).map phraseFlag := by
      by_cases ht : text = ""
      · subst ht
        rw [if_neg (by simp)]
        decide
      · rw [if_pos ht, foldl_append_filter]
        simp
    rcases er with _ | v₁ <;> rcases ps with _ | v₂ <;>
      simp only [red_flag_scan] <;> rw [hphrases]
    · simp
    · rw [ite_truthy_and v₂ 30 (by norm_num)]
      by_cases h2 : 30 < v₂ <;> simp [h2]
    · rw [ite_truthy_and v₁ 20 (by norm_num)]
      by_cases h1 : 20 < v₁ <;> simp [h1]
    · rw [ite_truthy_and v₁ 20 (by norm_num), ite_truthy_and v₂ 30 (by norm_num)]
      by_cases h1 : 20 < v₁ <;> by_cases h2 : 30 < v₂ <;> simp [h1, h2]
  · decide

/-- Claim C9 counterexample: with only the high bound present the
formatter returns `"Up to $22"`, not the claimed no-data dash `"—"`. -/
theorem format_price_counterexample :
    format_price none none (some 22) = "Up to $22" ∧
    format_price none none (some 22) ≠ "—" := by
  constructor <;> decide

/-- Claim C9 (amended): the formatter returns the exact price when the
price is given and non-zero (Python truthiness); else the low–high range
when both bounds are given and non-zero; else the low bound with a `"+"`
suffix when only the low bound is truthy; else `"Up to $high"` when only
the high bound is truthy; and the no-data dash `"—"` only when all three
are absent or zero. -/
theorem format_price_spec (price min_p max_p : Option ℚ) :
    (∀ p, price = some p → p ≠ 0 →
      format_price price min_p max_p = "$" ++ ratToStr p) ∧
    (optTruthy price = false → ∀ lo hi, min_p = some lo → lo ≠ 0 → max_p = some hi → hi ≠ 0 →
      format_price price min_p max_p = "$" ++ ratToStr lo ++ " – $" ++ ratToStr hi) ∧
    (optTruthy price = false → optTruthy max_p = false → ∀ lo, min_p = some lo → lo ≠ 0 →
      format_price price min_p max_p = "$" ++ ratToStr lo ++ "+") ∧
    (optTruthy price = false → optTruthy min_p = false → ∀ hi, max_p = some hi → hi ≠ 0 →
      format_price price min_p max_p = "Up to $" ++ ratToStr hi) ∧
    (optTruthy price = false → optTruthy min_p = false → optTruthy max_p = false →
      format_price price min_p max_p = "—") := by
  refine ⟨?_, ?_, ?_, ?_, ?_⟩
  · rintro p rfl hp
    have ht : optTruthy (some p) = true := by simp [optTruthy, hp]
    simp [format_price, ht]
  · rintro hpf lo hi rfl hlo rfl hhi
    have hl : optTruthy (some lo) = true := by simp [optTruthy, hlo]
    have hh : optTruthy (some hi) = true := by simp [optTruthy, hhi]
    simp [format_price, hpf, hl, hh]
  · rintro hpf hmaxf lo rfl hlo
    have hl : optTruthy (some lo) = true := by simp [optTruthy, hlo]
    simp [format_price, hpf, hmaxf, hl]
  · rintro hpf hminf hi rfl hhi
    have hh : optTruthy (some hi) = true := by simp [optTruthy, hhi]
    simp [format_price, hpf, hminf, hh]
  · rintro hpf hminf hmaxf
    simp [format_price, hpf, hminf, hmaxf]

/-- Claim C9 witness: concrete instantiations of the amended cases. -/
theorem format_price_spec_witness :
    format_price (some 20) none none = "$20" ∧
    format_price none (some 18) none = "$18+" := by
  constructor
  · have h := (format_price_spec (some 20) none none).1 20 rfl (by norm_num)
    rw [h]; decide
  · have h := (format_price_spec none (some 18) none).2.2.1 rfl rfl 18 rfl (by norm_num)
    rw [h]; decide

/-- Claim C5 counterexample: a present price of 0 is falsy in Python, so
with price = 0, bounds 18 and 22 and 1,000,000 shares the code uses the
range midpoint and returns 20,000,000, while the claim (price times share
count, price being the point estimate when given) demands 0. -/
theorem implied_marketcap_counterexample :
    implied_marketcap (some 0) (some 18) (some 22) (some (SharesVal.num 1000000))
      = some 20000000 ∧
    implied_marketcap (some 0) (some 18) (some 22) (some (SharesVal.num 1000000))
      ≠ some (0 * 1000000) := by
  have h : implied_marketcap (some 0) (some 18) (some 22) (some (SharesVal.num 1000000))
      = some 20000000 := by
    simp only [implied_marketcap, coerceShares, optTruthy]
    norm_num
  rw [h]
  norm_num

/-- The implied-market-cap block when the price field is truthy. -/
theorem implied_marketcap_point (p : ℚ) (hp : p ≠ 0) (min_p max_p : Option ℚ)
    (shares : Option SharesVal) :
    implied_marketcap (some p) min_p max_p shares =
      if coerceShares shares ≠ 0 then some (p * coerceShares shares) else none := by
  have ht : optTruthy (some p) = true := by simp [optTruthy, hp]
  by_cases hs : coerceShares shares = 0 <;> simp [implied_marketcap, ht, hp, hs]

/-- The implied-market-cap block when the price field is falsy and both
range bounds are truthy. -/
theorem implied_marketcap_mid (price : Option ℚ) (hpf : optTruthy price = false)
    (lo hi : ℚ) (hlo : lo ≠ 0) (hhi : hi ≠ 0) (shares : Option SharesVal) :
    implied_marketcap price (some lo) (some hi) shares =
      if (lo + hi) / 2 ≠ 0 ∧ coerceShares shares ≠ 0 then
        some ((lo + hi) / 2 * coerceShares shares)
      else none := by
  have hl : optTruthy (some lo) = true := by simp [optTruthy, hlo]
  have hh : optTruthy (some hi) = true := by simp [optTruthy, hhi]
  by_cases hm : (lo + hi) / 2 = 0 <;> by_cases hs : coerceShares shares = 0 <;>
    simp [implied_marketcap, hpf, hl, hh, hm, hs]

/-- Claim C5 (amended): the price operand is the point estimate when given
and non-zero (Python truthiness), else the midpoint of the range when both
bounds are given and non-zero, else missing; the implied market cap is the
product of the price operand and the coerced share count when both are
non-zero, and `none` whenever either is missing or zero; a string share
count is coerced by stripping its non-digit characters.  In particular the
claim examples hold, and a missing share count yields `none`, never 0. -/
theorem implied_marketcap_spec (price min_p max_p : Option ℚ) (shares : Option SharesVal) :
    (∀ p, price = some p → p ≠ 0 →
      implied_marketcap price min_p max_p shares =
        if coerceShares shares ≠ 0 then some (p * coerceShares shares) else none) ∧
    (optTruthy price = false → ∀ lo hi, min_p = some lo → lo ≠ 0 → max_p = some hi → hi ≠ 0 →
      implied_marketcap price min_p max_p shares =
        if (lo + hi) / 2 ≠ 0 ∧ coerceShares shares ≠ 0 then
          some ((lo + hi) / 2 * coerceShares shares)
        else none) ∧
    (optTruthy price = false → (optTruthy min_p = false ∨ optTruthy max_p = false) →
      implied_marketcap price min_p max_p shares = none) ∧
    (shares = none → implied_marketcap price min_p max_p shares = none) ∧
    implied_marketcap (some 20) none none (some (SharesVal.str "1,000,000")) = some 20000000 ∧
    implied_marketcap none (some 18) (some 22) (some (SharesVal.num 1000000)) = some 20000000 := by
  refine ⟨?_, ?_, ?_, ?_, ?_, ?_⟩
  · rintro p rfl hp
    exact implied_marketcap_point p hp min_p max_p shares
  · rintro hpf lo hi rfl hlo rfl hhi
    exact implied_marketcap_mid price hpf lo hi hlo hhi shares
  · rintro hpf h
    rcases h with hminf | hmaxf
    · simp [implied_marketcap, hpf, hminf]
    · simp [implied_marketcap, hpf, hmaxf]
  · rintro rfl
    simp only [implied_marketcap, coerceShares]
    split <;> simp
  · have h2 : digitsToNat (stripNonDigits "1,000,000").data = 1000000 := by decide
    have hs : coerceShares (some (SharesVal.str "1,000,000")) = 1000000 := by
      simp only [coerceShares]
      rw [if_neg (by decide : ¬("1,000,000" : String) = ""),
        if_neg (by decide : ¬stripNonDigits "1,000,000" = ""), h2]
      norm_num
    rw [implied_marketcap_point 20 (by norm_num) none none
      (some (SharesVal.str "1,000,000")), hs, if_pos (by norm_num)]
    norm_num
  · have hs : coerceShares (some (SharesVal.num 1000000)) = 1000000 := rfl
    rw [implied_marketcap_mid none rfl 18 22 (by norm_num) (by norm_num)
      (some (SharesVal.num 1000000)), hs, if_pos (by norm_num)]
    norm_num

/-- Claim C5 witness: a concrete instantiation — price 20 with a numeric
share count of 1,000,000 yields 20,000,000, via the amended theorem. -/
theorem implied_marketcap_spec_witness :
    implied_marketcap (some 20) none none (some (SharesVal.num 1000000)) = some 20000000 := by
  have h := (implied_marketcap_spec (some 20) none none
    (some (SharesVal.num 1000000))).1 20 rfl (by norm_num)
  rw [h]
  norm_num [coerceShares]

/-- Lemma: `dropDupAux` never invents rows: its output is a sublist of its
input. -/
theorem dropDupAux_sublist (seen : List RowKey) (rows : List Row) :
    (dropDupAux seen rows).Sublist rows := by
  induction rows generalizing seen with
  | nil => simp [dropDupAux]
  | cons r rs ih =>
    rw [dropDupAux]
    split
    · exact (ih seen).cons r
    · exact (ih (rowKey r :: seen)).cons₂ r

/-- The rows of one key surviving `dropDupAux`: none when the key was
already seen, else exactly the first input row carrying it. -/
theorem dropDupAux_filter (seen : List RowKey) (rows : List Row) (k : RowKey) :
    (dropDupAux seen rows).filter (fun r => rowKey r == k)
      = if k ∈ seen then [] else (rows.filter (fun r => rowKey r == k)).take 1 := by
  induction rows generalizing seen with
  | nil => simp [dropDupAux]
  | cons r rs ih =>
    by_cases hseen : rowKey r ∈ seen
    · rw [dropDupAux, if_pos hseen, ih]
      by_cases hmem : k ∈ seen
      · rw [if_pos hmem, if_pos hmem]
      · have hk : ¬(rowKey r == k) = true := by
          simp only [beq_iff_eq]
          rintro rfl
          exact hmem hseen
        rw [if_neg hmem, if_neg hmem, List.filter_cons_of_neg (by simpa using hk)]
    · rw [dropDupAux, if_neg hseen]
      by_cases hk : rowKey r = k
      · subst hk
        have hnot : rowKey r ∉ seen := hseen
        rw [List.filter_cons_of_pos (by simp), ih, if_pos (List.mem_cons_self _ _),
          if_neg hnot, List.filter_cons_of_pos (by simp)]
        simp
      · rw [List.filter_cons_of_neg (by simpa using hk), ih]
        by_cases hmem : k ∈ seen
        · rw [if_pos hmem, if_pos (List.mem_cons_of_mem _ hmem)]
        · have hnc : k ∉ rowKey r :: seen := by
            simp only [List.mem_cons]
            rintro (rfl | hc)
            · exact hk rfl
            · exact hmem hc
          rw [if_neg hnc, if_neg hmem, List.filter_cons_of_neg (by simpa using hk)]

/-- Claim C6: deduplication keeps, for every composite
(date, company, symbol, source) key, exactly the first input row with that
key — so every set of rows sharing a key collapses to its first member,
rows whose keys differ in any component are all kept, and no rows are
merged or invented (the output is a sublist of the input). -/
theorem drop_duplicates_spec (rows : List Row) :
    (drop_duplicates rows).Sublist rows ∧
    ∀ k : RowKey, (drop_duplicates rows).filter (fun r => rowKey r == k)
      = (rows.filter (fun r => rowKey r == k)).take 1 := by
  refine ⟨dropDupAux_sublist [] rows, fun k => ?_⟩
  rw [drop_duplicates, dropDupAux_filter, if_neg (List.not_mem_nil k)]

/-- A sort by date cannot turn a non-empty list empty. -/
theorem sortByDate_eq_nil {l : List Row} (h : sortByDate l = []) : l = [] := by
  have hp := List.perm_insertionSort (fun a b => dateLe a.date b.date = true) l
  rw [sortByDate] at h
  rw [h] at hp
  exact (hp.symm.eq_nil)

/-- Claim C7: when the deduplicated candidate set for the window is empty
the orchestrator signals the distinct empty-result condition (the
`st.info` message followed by `st.stop()`, modelled as the `Except.error`
outcome): the error is returned exactly when the deduplicated
concatenation is empty; a successful run never carries an empty record
list; on the empty signal the enrichment function is never consulted (the
outcome is the same for every enrichment function); and the signal is
distinguishable from every successful run — in particular from one whose
candidates simply have no red flags. -/
theorem orchestrate_empty_signal {E : Type} (fmp_rows finnhub_rows : List Row)
    (enrich : Row → E) :
    (orchestrate fmp_rows finnhub_rows enrich = Except.error emptyMsg ↔
      drop_duplicates (fmp_rows ++ finnhub_rows) = []) ∧
    (∀ out, orchestrate fmp_rows finnhub_rows enrich = Except.ok out → out ≠ []) ∧
    (drop_duplicates (fmp_rows ++ finnhub_rows) = [] →
      ∀ enrich2 : Row → E, orchestrate fmp_rows finnhub_rows enrich
        = orchestrate fmp_rows finnhub_rows enrich2) ∧
    (∀ out : List E, (Except.error emptyMsg : Except String (List E)) ≠ Except.ok out) := by
  refine ⟨?_, ?_, ?_, ?_⟩
  · constructor
    · intro h
      by_contra hne
      rw [orchestrate] at h
      rw [if_neg hne] at h
      cases h
    · intro h
      rw [orchestrate]
      rw [if_pos h]
  · intro out h hnil
    by_cases hd : drop_duplicates (fmp_rows ++ finnhub_rows) = []
    · rw [orchestrate] at h
      rw [if_pos hd] at h
      cases h
    · rw [orchestrate] at h
      rw [if_neg hd] at h
      have hout : (sortByDate (drop_duplicates (fmp_rows ++ finnhub_rows))).map enrich = out :=
        Except.ok.inj h
      rw [hnil] at hout
      exact hd (sortByDate_eq_nil (List.map_eq_nil_iff.mp hout))
  · intro hd enrich2
    rw [orchestrate, orchestrate]
    rw [if_pos hd, if_pos hd]
  · intro out
    simp

/-- Claim C7 witness: an empty window (no provider rows at all) produces
the empty-result signal. -/
theorem orchestrate_empty_signal_witness :
    orchestrate ([] : List Row) [] (fun _ => (0 : ℕ)) = Except.error emptyMsg :=
  (orchestrate_empty_signal [] [] (fun _ => (0 : ℕ))).1.mpr rfl

/-- A left fold that appends per-character output distributes over the
starting accumulator. -/
theorem foldl_strAppend (g : Char → String) (cs : List Char) (acc : String) :
    cs.foldl (fun a c => a ++ g c) acc = acc ++ cs.foldl (fun a c => a ++ g c) "" := by
  induction cs generalizing acc with
  | nil => simp
  | cons c cs ih =>
    simp only [List.foldl_cons]
    rw [ih (acc ++ g c), ih (("" : String) ++ g c)]
    have he : ("" : String) ++ g c = g c := by simp
    rw [he, String.append_assoc]

/-- Percent-encoding distributes over concatenation (it is built byte by
byte). -/
theorem pyQuote_append (a b : String) : pyQuote (a ++ b) = pyQuote a ++ pyQuote b := by
  simp only [pyQuote, String.data_append, List.foldl_append]
  rw [foldl_strAppend]

/-- Claim C8: the sector-outlook resolver returns the curated entry of the
first keyword (in table iteration order: cybersecurity, ai, biotechnology,
renewable energy, fintech) occurring case-insensitively as a substring of
the input; with no keyword match it returns the fallback outlook whose only
source is the constructed web-search URL, which contains the
percent-encoded input term; e.g. resolving "Widgets" yields the single
search source whose URL contains "Widgets". -/
theorem get_tam_cagr_spec :
    (∀ s : String, get_tam_cagr (some s) = specResolveOutlook s) ∧
    (∀ s : String,
      (∀ k ∈ specOutlookKeywords, strContains (strLower s) k = false) →
      (get_tam_cagr (some s)).sources =
        [("Search results",
          "https://www.google.com/search?q=" ++ pyQuote "market size " ++ pyQuote s)] ∧
      (pyQuote s).data <:+:
        ("https://www.google.com/search?q=" ++ pyQuote "market size " ++ pyQuote s).data) ∧
    ((get_tam_cagr (some "Widgets")).sources =
       [("Search results", "https://www.google.com/search?q=market%20size%20Widgets")] ∧
     ("Widgets" : String).data <:+:
       ("https://www.google.com/search?q=market%20size%20Widgets" : String).data) := by
  have hmain : ∀ s : String, get_tam_cagr (some s) = specResolveOutlook s := by
    intro s
    rcases h1 : strContains (strLower s) "cybersecurity" <;>
      rcases h2 : strContains (strLower s) "ai" <;>
      rcases h3 : strContains (strLower s) "biotechnology" <;>
      rcases h4 : strContains (strLower s) "renewable energy" <;>
      rcases h5 : strContains (strLower s) "fintech" <;>
      simp [get_tam_cagr, specResolveOutlook, specOutlookKeywords, TAM_CAGR_MAP,
        List.find?, List.lookup, h1, h2, h3, h4, h5]
  refine ⟨hmain, ?_, ?_⟩
  · intro s hnone
    have h1 := hnone "cybersecurity" (by simp [specOutlookKeywords])
    have h2 := hnone "ai" (by simp [specOutlookKeywords])
    have h3 := hnone "biotechnology" (by simp [specOutlookKeywords])
    have h4 := hnone "renewable energy" (by simp [specOutlookKeywords])
    have h5 := hnone "fintech" (by simp [specOutlookKeywords])
    have hurl : pyQuote ("market size " ++ s) = pyQuote "market size " ++ pyQuote s :=
      pyQuote_append _ _
    have hres : get_tam_cagr (some s) = fallbackOutlook (some s) := by
      simp [get_tam_cagr, TAM_CAGR_MAP, List.find?, h1, h2, h3, h4, h5]
    constructor
    · rw [hres]
      simp only [fallbackOutlook, Option.getD_some, hurl, String.append_assoc]
    · rw [show ("https://www.google.com/search?q=" ++ pyQuote "market size " ++ pyQuote s)
          = ("https://www.google.com/search?q=" ++ pyQuote "market size ") ++ pyQuote s
          from rfl, String.data_append]
      exact (List.suffix_append _ _).isInfix
  · constructor
    · decide
    · decide

/-- Claim C8 witness: at the concrete no-match input "Widgets" the
resolver falls back to the single search source containing the
percent-encoded term. -/
theorem get_tam_cagr_spec_witness :
    (get_tam_cagr (some "Widgets")).sources =
      [("Search results",
        "https://www.google.com/search?q=" ++ pyQuote "market size " ++ pyQuote "Widgets")] :=
  (get_tam_cagr_spec.2.1 "Widgets" (by decide)).1

/-- Claim C10: the underwriter credibility score is ("Unknown", []) exactly
when the input is absent or empty; otherwise, with `rosterMatches us` the
input entries containing some roster bank name case-insensitively, the
result is ("High", matches) for two or more matches, ("Medium", matches)
for exactly one, and ("Low", whole input) for zero. -/
theorem underwriter_credibility_spec (l : Option (List String)) :
    (underwriter_credibility_score l = ("Unknown", []) ↔ l = none ∨ l = some []) ∧
    (∀ us, l = some us → us ≠ [] →
      (2 ≤ (rosterMatches us).length →
        underwriter_credibility_score l = ("High", rosterMatches us)) ∧
      ((rosterMatches us).length = 1 →
        underwriter_credibility_score l = ("Medium", rosterMatches us)) ∧
      ((rosterMatches us).length = 0 →
        underwriter_credibility_score l = ("Low", us))) := by
  constructor
  · constructor
    · intro h
      rcases l with _ | us
      · exact Or.inl rfl
      · rcases hus : us with _ | ⟨u, us2⟩
        · exact Or.inr rfl
        · exfalso
          rw [underwriter_credibility_score, hus] at h
          rw [if_neg (by simp)] at h
          split_ifs at h <;> simp_all
    · rintro (rfl | rfl)
      · rfl
      · rw [underwriter_credibility_score, if_pos rfl]
  · rintro us rfl hne
    rw [underwriter_credibility_score, if_neg hne]
    refine ⟨fun h2 => ?_, fun h1 => ?_, fun h0 => ?_⟩
    · rw [if_pos h2]
    · rw [if_neg (by omega), if_pos h1]
    · rw [if_neg (by omega), if_neg (by omega)]

/-- Claim C10 witness: two roster matches out of three entries score
"High" with the matched entries returned. -/
theorem underwriter_credibility_spec_witness :
    underwriter_credibility_score (some ["Goldman Sachs & Co.", "Morgan Stanley", "Acme"])
      = ("High", ["Goldman Sachs & Co.", "Morgan Stanley"]) := by
  have hm : rosterMatches ["Goldman Sachs & Co.", "Morgan Stanley", "Acme"]
      = ["Goldman Sachs & Co.", "Morgan Stanley"] := by decide
  have h := ((underwriter_credibility_spec
      (some ["Goldman Sachs & Co.", "Morgan Stanley", "Acme"])).2
    ["Goldman Sachs & Co.", "Morgan Stanley", "Acme"] rfl (by simp)).1
    (by rw [hm]; decide)
  rw [hm] at h
  exact h

/-- The claim C1 input:
`{"risk": {"text": "Lockup period of 180 days applies."}}`. -/
def lockupExample : JVal :=
  JVal.obj (JObj.cons "risk"
    (JVal.obj (JObj.cons "text" (JVal.str "Lockup period of 180 days applies.") JObj.nil))
    JObj.nil)

/-- Claim C1 counterexample: on the nested example input the filing signal
extraction yields no lockup at all — not the claimed "180 days". -/
theorem lockup_counterexample :
    pipelineLockup lockupExample ≠ some "180 days" ∧
    pipelineLockup lockupExample = none := by
  constructor <;> decide

/-- Claim C1 (amended): on the nested example input the extraction yields
lockup = none: `recursive_search` hits a `TypeError` on the nested
dict-typed value (`txt += recursive_search(v)` appends a tuple to a string;
the orchestrator catches it, leaving the combined text empty), and
independently the inner string has only 34 ≤ 40 characters, so even the
spec's own accumulation rule collects nothing — lockup parsing over the
accumulated text returns none either way. -/
theorem lockup_amended :
    pipelineLockup lockupExample = none ∧
    recursive_search lockupExample = Except.error () ∧
    specAccumulatedText lockupExample = "" ∧
    parse_lockup (specAccumulatedText lockupExample) = none := by
  refine ⟨by decide, rfl, by decide, by decide⟩

end IPOApp
